import Mathlib

/-!
Shallow embedding of the versioning engine and note/project repository of the
va-notes2025 client-side note application (src/app.js and the near-duplicate
variants src/unnamed/part_001, part_002, part_004), together with theorems
settling the specification claims about it.

Modelling conventions:
* Timestamps are integer milliseconds (`Int`); the JS code stores dates as
  strings and compares them through `new Date(...)`, which this embedding
  reflects as plain integer arithmetic (`now - last.date`).
* The asynchronous IndexedDB store is modelled as lists of records inside an
  explicit application state; `put` is an upsert keyed by `id`, `delete` is a
  filter by key.  The success / failure of an individual persisted delete is
  an explicit parameter where a claim depends on it.
* DOM-based presentation glue (HTML sanitisation, `innerHTML`→`textContent`
  stripping, rendering, toasts) is outside the core per spec §1; content
  strings here are the stripped plain text on which the core operates.
-/

namespace VaNotes

/-- A version snapshot embedded in a note: `{content, date}`
(src/app.js:573, src/unnamed/part_002:386-389). -/
structure Version where
  content : String
  date : Int
deriving DecidableEq

/-- A note record as created by `createNote` (src/app.js:564-574).
The cosmetic `formattedDate` field is display-only and omitted. -/
structure Note where
  id : Nat
  title : String
  content : String
  author : String
  projectId : Option Nat
  date : Int
  tags : List String
  versions : List Version
deriving DecidableEq

/-- A project record (src/app.js:757-761, src/unnamed/part_002:534-538). -/
structure Project where
  id : Nat
  name : String
  color : String
deriving DecidableEq

/-- Characters matched by the hashtag regex character class `[\w-]`
in `extractTags` (src/app.js:634): ASCII letters, digits, underscore, hyphen. -/
def isTagChar (c : Char) : Bool :=
  c.isAlphanum || c = '_' || c = '-'

/-- Fuelled scan implementing the global regex match `/#([\w-]+)/g` of
`extractTags` (src/app.js:634-635): find a `#`, take the maximal nonempty run
of tag characters after it, continue after the run.  Fuel is structural so the
function evaluates in the kernel; `extractHashtags` supplies enough fuel. -/
def extractHashtagsAux : Nat → List Char → List String
  | 0, _ => []
  | _ + 1, [] => []
  | fuel + 1, c :: rest =>
    if c = '#' then
      let run := rest.takeWhile isTagChar
      if run.isEmpty then
        extractHashtagsAux fuel rest
      else
        String.mk run :: extractHashtagsAux fuel (rest.dropWhile isTagChar)
    else
      extractHashtagsAux fuel rest

/-- All hashtag bodies (without the `#`) occurring in a character stream,
left to right, as matched by `/#([\w-]+)/g` (src/app.js:634-635). -/
def extractHashtags (cs : List Char) : List String :=
  extractHashtagsAux cs.length cs

/-- First-occurrence deduplication, the order `[...new Set(xs)]` yields
(src/app.js:639). -/
def dedupKeepFirst : List String → List String
  | [] => []
  | x :: xs => x :: (dedupKeepFirst xs).filter (fun y => y != x)

/-- `extractTags` (src/app.js:627-642): hashtags of the (DOM-stripped) text,
each without its `#` and lowercased, deduplicated keeping first occurrences. -/
def extractTags (content : String) : List String :=
  dedupKeepFirst ((extractHashtags content.data).map String.toLower)

/-- `updateNote` of src/app.js:650-731 specialised to `field == 'content'`,
acting on the note found in the collection; `value` is the content after the
DOM-based `sanitizeHtml` (presentation glue, spec §1), `interval` is
`this.versioningInterval` and `now` the current timestamp.  The function
sets `content` and `date` unconditionally, re-derives `tags` from the new
content (src/app.js:670-685), and runs the versioning block
(src/app.js:688-716) only when the content changed and the interval is
positive; src/unnamed/part_002:407-437 and part_004:185-214 share the same
versioning block. -/
def updateNoteContent (note : Note) (value : String) (interval : Int) (now : Int) : Note :=
  let oldValue := note.content
  let note1 : Note := { note with content := value, date := now, tags := extractTags value }
  if value ≠ oldValue ∧ 0 < interval then
    match note1.versions.getLast? with
    | some lastVersion =>
      if interval ≤ now - lastVersion.date then
        { note1 with versions := note1.versions ++ [⟨value, now⟩] }
      else
        { note1 with versions := note1.versions.dropLast ++ [⟨value, now⟩] }
    | none =>
      { note1 with versions := note1.versions ++ [⟨value, now⟩] }
  else
    note1

/-- `addTag` of src/app.js:814-835, restricted to the note it mutates:
append the tag unless already present. -/
def addTag (note : Note) (tag : String) : Note :=
  if note.tags.contains tag then note
  else { note with tags := note.tags ++ [tag] }

/-- JavaScript array indexing `arr[i]` on the versions array: defined exactly
for `0 ≤ i < length`, `undefined` (here `none`) otherwise. -/
def jsGetVersion (vs : List Version) (i : Int) : Option Version :=
  if 0 ≤ i then vs.get? i.toNat else none

/-- Outcome of a JS method that may throw a `TypeError` part-way through:
`ok` carries the result, `thrown` carries the state the method left behind
at the point the exception escaped. -/
inductive JsOutcome (α : Type) where
  | ok : α → JsOutcome α
  | thrown : α → JsOutcome α
deriving DecidableEq

/-- The state a `JsOutcome` left behind, whether or not it threw. -/
def JsOutcome.state : JsOutcome α → α
  | .ok a => a
  | .thrown a => a

/-- Whether the method threw. -/
def JsOutcome.threw : JsOutcome α → Bool
  | .ok _ => false
  | .thrown _ => true

/-- `restoreVersion` of src/unnamed/part_002:669-693 (identical logic in
part_004:429-449): capture `versions[versionIndex]` first, push the current
content as a new version, then assign `note.content` from the captured
version.  There is no index check: for an out-of-range index the capture is
`undefined`, the push still happens, and the subsequent `.content` access
throws, leaving the note with the extra version. -/
def restoreVersion (note : Note) (index : Int) (now : Int) : JsOutcome Note :=
  let versionToRestore := jsGetVersion note.versions index
  let newVersion : Version := ⟨note.content, now⟩
  let note1 : Note := { note with versions := note.versions ++ [newVersion] }
  match versionToRestore with
  | some v => .ok { note1 with content := v.content, date := now }
  | none => .thrown note1

/-- `previewVersion` of src/unnamed/part_002:616-625: reject an index outside
`[0, versions.length)` (returning no content, note untouched), otherwise read
`versions[versionIndex].content`; a pure read by construction. -/
def previewVersion (note : Note) (index : Int) : Option String :=
  if index < 0 ∨ (note.versions.length : Int) ≤ index then none
  else (jsGetVersion note.versions index).map Version.content

/-- Application state: the in-memory authoritative collections and their
mirrors in the IndexedDB store ("notes" and "projects" object stores, both
with `keyPath: 'id'`, src/unnamed/part_002 initDB / src/app.js initDB). -/
structure AppState where
  notes : List Note
  projects : List Project
  storeNotes : List Note
  storeProjects : List Project
deriving DecidableEq

/-- IndexedDB `put` on the notes store: upsert keyed by `id` (a put with an
existing key overwrites). -/
def putNote (store : List Note) (note : Note) : List Note :=
  store.filter (fun r => r.id != note.id) ++ [note]

/-- IndexedDB `put` on the projects store: upsert keyed by `id`. -/
def putProject (store : List Project) (project : Project) : List Project :=
  store.filter (fun r => r.id != project.id) ++ [project]

/-- `getAll` on the "notes" collection: every record currently stored. -/
def getAllNotes (s : AppState) : List Note :=
  s.storeNotes

/-- `createNote` of src/app.js:560-588: build the note with a fresh `id`,
author from the author input (`|| 'Anonymous'`), the current project, empty
tags and `versions` seeded with the single entry `{content, date: now}`;
prepend it to the in-memory list (`unshift`) and `put` it in the store.
`id` and `now` stand for `Date.now()`. -/
def createNote (s : AppState) (id : Nat) (title content authorInput : String)
    (projectId : Option Nat) (now : Int) : AppState :=
  let note : Note :=
    { id := id, title := title, content := content
      author := if authorInput = "" then "Anonymous" else authorInput
      projectId := projectId, date := now, tags := []
      versions := [⟨content, now⟩] }
  { s with notes := note :: s.notes, storeNotes := putNote s.storeNotes note }

/-- The eight colors of `this.projectColors`
(src/unnamed/part_002:74-83, src/app.js:295-304). -/
def projectColors : List String :=
  ["#6366f1", "#8b5cf6", "#ec4899", "#ef4444",
   "#f59e0b", "#10b981", "#06b6d4", "#3b82f6"]

/-- `addProject` of src/unnamed/part_002:529-548: guarded by the JS
truthiness test `if (projectName)` — for a string, exactly nonemptiness —
then a project with a fresh id and a randomly chosen color is pushed and
persisted.  `rand` stands for the random draw; the source computes
`Math.floor(Math.random() * this.projectColors.length)`, modelled as
`rand % projectColors.length`.  (The src/app.js:756-774 variant has no
guard at all; its callers test `name.trim()` before calling.) -/
def addProject (s : AppState) (id : Nat) (projectName : String) (rand : Nat) : AppState :=
  if projectName ≠ "" then
    let project : Project :=
      { id := id, name := projectName
        color := projectColors.getD (rand % projectColors.length) "" }
    { s with projects := s.projects ++ [project]
             storeProjects := putProject s.storeProjects project }
  else
    s

/-- `deleteProject` of src/app.js:780-807 (same structure in
src/unnamed/part_002:554-573): delete the project record from the store,
filter it from memory, then issue one store delete per in-memory note whose
`projectId` matches and join them with `Promise.all`.  All per-note deletes
are issued (fan-out), so every one that succeeds removes its record from the
store; but the in-memory `notes` filter lives in the `.then` of the
`Promise.all`, so it runs only when every per-note delete succeeded — on any
failure the rejection skips it and the `.catch` merely reports the error.
`deleteFails id` says whether the persisted delete of note `id` fails. -/
def deleteProject (s : AppState) (pid : Nat) (deleteFails : Nat → Bool) : AppState :=
  let projects := s.projects.filter (fun p => p.id != pid)
  let storeProjects := s.storeProjects.filter (fun p => p.id != pid)
  let projectNotes := s.notes.filter (fun n => n.projectId == some pid)
  let storeNotes := s.storeNotes.filter
    (fun r => !(projectNotes.any (fun n => n.id == r.id && !(deleteFails n.id))))
  if projectNotes.all (fun n => !(deleteFails n.id)) then
    { notes := s.notes.filter (fun n => !(n.projectId == some pid))
      projects := projects, storeNotes := storeNotes, storeProjects := storeProjects }
  else
    { notes := s.notes
      projects := projects, storeNotes := storeNotes, storeProjects := storeProjects }

/-! Concrete records used to exercise the operations on explicit inputs. -/

/-- A note with one seed version, as `createNote` leaves it. -/
def exNote1 : Note :=
  { id := 1
    title := "T"
    content := "a"
    author := "Anonymous"
    projectId := none
    date := 0
    tags := []
    versions := [⟨"a", 0⟩] }

/-- A note carrying two versions and a current content differing from both. -/
def exNote2 : Note :=
  { id := 2
    title := "U"
    content := "cur"
    author := "Anonymous"
    projectId := none
    date := 2
    tags := []
    versions := [⟨"v0", 0⟩, ⟨"v1", 1⟩] }

/-- A note created at time 0 with content `C0`, still holding its seed version. -/
def exNoteC0 : Note :=
  { id := 3
    title := "V"
    content := "C0"
    author := "Anonymous"
    projectId := none
    date := 0
    tags := []
    versions := [⟨"C0", 0⟩] }

/-- A note whose tags were set independently of its content. -/
def exNoteTagged : Note :=
  { id := 4
    title := "W"
    content := "x"
    author := "Anonymous"
    projectId := none
    date := 0
    tags := ["keep"]
    versions := [⟨"x", 0⟩] }

/-- A note with id 1 in project 10. -/
def exP10a : Note :=
  { id := 1
    title := "n1"
    content := "c1"
    author := "Anonymous"
    projectId := some 10
    date := 0
    tags := []
    versions := [⟨"c1", 0⟩] }

/-- A second note (id 3) in project 10. -/
def exP10b : Note :=
  { id := 3
    title := "n3"
    content := "c3"
    author := "Anonymous"
    projectId := some 10
    date := 0
    tags := []
    versions := [⟨"c3", 0⟩] }

/-- A note with id 2 in project 20. -/
def exP20 : Note :=
  { id := 2
    title := "n2"
    content := "c2"
    author := "Anonymous"
    projectId := some 20
    date := 0
    tags := []
    versions := [⟨"c2", 0⟩] }

/-- A state with two projects and notes in each, store mirroring memory. -/
def exState : AppState :=
  { notes := [exP10a, exP20]
    projects := [⟨10, "A", "#6366f1"⟩, ⟨20, "B", "#8b5cf6"⟩]
    storeNotes := [exP10a, exP20]
    storeProjects := [⟨10, "A", "#6366f1"⟩, ⟨20, "B", "#8b5cf6"⟩] }

/-- A state whose project 10 owns two notes, store mirroring memory. -/
def exState2 : AppState :=
  { notes := [exP10a, exP10b, exP20]
    projects := [⟨10, "A", "#6366f1"⟩, ⟨20, "B", "#8b5cf6"⟩]
    storeNotes := [exP10a, exP10b, exP20]
    storeProjects := [⟨10, "A", "#6366f1"⟩, ⟨20, "B", "#8b5cf6"⟩] }

/-- The empty application state. -/
def emptyState : AppState :=
  { notes := [], projects := [], storeNotes := [], storeProjects := [] }

/-- Per-note store-delete outcomes where exactly the delete of note id 1 fails. -/
def exFails : Nat → Bool := fun id => id == 1

/-! Helper lemmas shared by several claims. -/

/-- With a changed content and a positive interval, the versioning block of
`updateNote` appends when `now - last.date` reaches the interval and
otherwise rewrites the last snapshot. -/
theorem updateNoteContent_versions_pos (note : Note) (value : String)
    (interval now : Int) (last : Version)
    (hlast : note.versions.getLast? = some last)
    (hne : value ≠ note.content) (hpos : 0 < interval) :
    (updateNoteContent note value interval now).versions =
      if interval ≤ now - last.date then note.versions ++ [⟨value, now⟩]
      else note.versions.dropLast ++ [⟨value, now⟩] := by
  unfold updateNoteContent
  rw [if_pos ⟨hne, hpos⟩]
  simp only [hlast]
  split <;> simp

/-- When the content did not change or the interval is not positive, the
versioning block of `updateNote` is skipped and the whole update reduces to
setting `content`, `date` and the re-derived `tags`. -/
theorem updateNoteContent_of_off (note : Note) (value : String)
    (interval now : Int) (h : ¬(value ≠ note.content ∧ 0 < interval)) :
    updateNoteContent note value interval now
      = { note with content := value, date := now, tags := extractTags value } := by
  unfold updateNoteContent
  rw [if_neg h]

/-- Every branch of `updateNote` for `field == 'content'` leaves the tags
re-derived from the new content (src/app.js:670-685). -/
theorem updateNoteContent_tags (note : Note) (value : String) (interval now : Int) :
    (updateNoteContent note value interval now).tags = extractTags value := by
  simp only [updateNoteContent]
  split
  · split
    · split <;> rfl
    · rfl
  · rfl

/-- JavaScript indexing outside `[0, length)` yields `undefined`. -/
theorem jsGetVersion_eq_none (vs : List Version) (i : Int)
    (h : i < 0 ∨ (vs.length : Int) ≤ i) : jsGetVersion vs i = none := by
  unfold jsGetVersion
  rcases h with h | h
  · rw [if_neg (by omega)]
  · rw [if_pos (by omega)]
    exact List.get?_eq_none.mpr (by omega)

/-! Claim theorems. -/

/-- C1: for a content update on an existing note (nonempty `versions`) with
changed content and positive interval, the update appends the new snapshot
`{content := value, date := now}` exactly when `now - last.date ≥ interval`
(the boundary `now - last.date = interval` appends), and otherwise rewrites
the last snapshot in place, keeping the length; and no other path of the
update grows `versions`: with interval 0 or with unchanged content the
versions list is untouched. -/
theorem updateNote_versioning_policy (note : Note) (value : String)
    (interval now : Int) (last : Version)
    (hlast : note.versions.getLast? = some last)
    (hne : value ≠ note.content) (hpos : 0 < interval) :
    (interval ≤ now - last.date →
      (updateNoteContent note value interval now).versions
        = note.versions ++ [⟨value, now⟩])
    ∧ (now - last.date < interval →
      (updateNoteContent note value interval now).versions
          = note.versions.dropLast ++ [⟨value, now⟩]
        ∧ (updateNoteContent note value interval now).versions.length
          = note.versions.length)
    ∧ (now - last.date = interval →
      (updateNoteContent note value interval now).versions
        = note.versions ++ [⟨value, now⟩])
    ∧ (∀ v n', (updateNoteContent note v 0 n').versions = note.versions)
    ∧ (∀ i n', (updateNoteContent note note.content i n').versions = note.versions) := by
  have hnil : note.versions ≠ [] := by
    intro h
    rw [h] at hlast
    simp at hlast
  have hlen : 0 < note.versions.length := List.length_pos.mpr hnil
  refine ⟨?_, ?_, ?_, ?_, ?_⟩
  · intro h
    rw [updateNoteContent_versions_pos note value interval now last hlast hne hpos, if_pos h]
  · intro h
    rw [updateNoteContent_versions_pos note value interval now last hlast hne hpos,
      if_neg (by omega)]
    refine ⟨rfl, ?_⟩
    simp only [List.length_append, List.length_dropLast, List.length_singleton]
    omega
  · intro h
    rw [updateNoteContent_versions_pos note value interval now last hlast hne hpos,
      if_pos (by omega)]
  · intro v n'
    rw [updateNoteContent_of_off note v 0 n' (by simp)]
  · intro i n'
    rw [updateNoteContent_of_off note note.content i n' (by simp)]

/-- Witness for C1 on concrete inputs: on `exNote1` (one version at time 0,
interval 5) an update at time 10 appends and an update at time 3 coalesces. -/
theorem updateNote_versioning_policy_witness :
    (updateNoteContent exNote1 "b" 5 10).versions = exNote1.versions ++ [⟨"b", 10⟩]
    ∧ (updateNoteContent exNote1 "c" 5 3).versions
        = exNote1.versions.dropLast ++ [⟨"c", 3⟩] :=
  ⟨(updateNote_versioning_policy exNote1 "b" 5 10 ⟨"a", 0⟩ (by decide) (by decide)
      (by decide)).1 (by decide),
   ((updateNote_versioning_policy exNote1 "c" 5 3 ⟨"a", 0⟩ (by decide) (by decide)
      (by decide)).2.1 (by decide)).1⟩

/-- C2 counterexample: with interval 0 the versioning block is skipped
entirely (src/app.js:688 requires `this.versioningInterval > 0`), so after 5
sequential content updates `C1`..`C5` on a note created with content `C0`
the single version still holds `C0`, not the 5th update's content as the
claim states. -/
theorem updateNote_interval_zero_counterexample :
    ((["C1", "C2", "C3", "C4", "C5"].zip [1, 2, 3, 4, 5]).foldl
        (fun n vu => updateNoteContent n vu.1 0 vu.2) exNoteC0).versions.length = 1
    ∧ ((["C1", "C2", "C3", "C4", "C5"].zip [1, 2, 3, 4, 5]).foldl
        (fun n vu => updateNoteContent n vu.1 0 vu.2) exNoteC0).versions.map
          Version.content = ["C0"]
    ∧ "C0" ≠ "C5" := by
  decide

/-- C2 amended: when the interval is 0 (disabled), content updates never
touch `versions` at all — no overwrite of the latest entry takes place — so
any sequence of updates leaves `versions` exactly as creation seeded it
(length 1 with the creation content for a fresh note). -/
theorem updateNote_interval_zero_untouched (note : Note) (us : List (String × Int)) :
    (us.foldl (fun n vu => updateNoteContent n vu.1 0 vu.2) note).versions
      = note.versions := by
  induction us generalizing note with
  | nil => rfl
  | cons u us ih =>
    simp only [List.foldl_cons]
    rw [ih]
    rw [updateNoteContent_of_off note u.1 0 u.2 (by simp)]

/-- C3 counterexample: updating `exNoteTagged` with content byte-identical
to its current content is not a no-op — `date` is refreshed (and the
manually added tag is dropped), only `versions` stays. -/
theorem updateNote_identical_content_counterexample :
    exNoteTagged.content = "x"
    ∧ updateNoteContent exNoteTagged "x" 5000 7 ≠ exNoteTagged
    ∧ (updateNoteContent exNoteTagged "x" 5000 7).date ≠ exNoteTagged.date
    ∧ (updateNoteContent exNoteTagged "x" 5000 7).tags ≠ exNoteTagged.tags
    ∧ (updateNoteContent exNoteTagged "x" 5000 7).versions = exNoteTagged.versions := by
  decide

/-- C3 amended: an identical-content update never mutates `versions` and
leaves `content` unchanged, but it is not a complete no-op: `note.date` is
set to `now` unconditionally (src/app.js:667) and `tags` are re-derived from
the content (src/app.js:677). -/
theorem updateNote_identical_content_amended (note : Note) (interval now : Int) :
    (updateNoteContent note note.content interval now).versions = note.versions
    ∧ (updateNoteContent note note.content interval now).content = note.content
    ∧ (updateNoteContent note note.content interval now).date = now
    ∧ (updateNoteContent note note.content interval now).tags
      = extractTags note.content := by
  rw [updateNoteContent_of_off note note.content interval now (by simp)]
  exact ⟨rfl, rfl, rfl, rfl⟩

/-- C4: restoring a valid version index first pushes the current content as
a new snapshot dated `now` and then sets the note's content to the content
the indexed version held before the push; the result has one more version,
whose last entry is the pre-restore content. -/
theorem restoreVersion_valid_spec (note : Note) (index now : Int) (v : Version)
    (hv : jsGetVersion note.versions index = some v) :
    restoreVersion note index now
      = .ok { note with
              versions := note.versions ++ [⟨note.content, now⟩]
              content := v.content
              date := now }
    ∧ (note.versions ++ [(⟨note.content, now⟩ : Version)]).length
      = note.versions.length + 1
    ∧ (note.versions ++ [(⟨note.content, now⟩ : Version)]).getLast?
      = some ⟨note.content, now⟩ := by
  refine ⟨?_, by simp, by simp⟩
  unfold restoreVersion
  simp only [hv]

/-- Witness for C4: restoring version 0 of `exNote2` (two versions, current
content `cur`) yields three versions ending in the pre-restore content, with
the note's content set to `v0`. -/
theorem restoreVersion_valid_spec_witness :
    restoreVersion exNote2 0 9
      = .ok { exNote2 with
              versions := exNote2.versions ++ [⟨exNote2.content, 9⟩]
              content := "v0"
              date := 9 } :=
  (restoreVersion_valid_spec exNote2 0 9 ⟨"v0", 0⟩ (by decide)).1

/-- C5 counterexample: `restoreVersion` performs no index check
(src/unnamed/part_002:669-693): restoring the out-of-range index 5 on the
one-version note `exNote1` still pushes the current content — the note ends
up with 2 versions — and then fails on the `undefined` access, so the note
is not left unchanged as the claim states. -/
theorem restoreVersion_invalid_counterexample :
    (restoreVersion exNote1 5 7).threw = true
    ∧ ((restoreVersion exNote1 5 7).state).versions.length = 2
    ∧ exNote1.versions.length = 1 := by
  decide

/-- C5 amended: `previewVersion` validates its index — out of range it
returns nothing and, being a pure read, touches nothing; in range it returns
`versions[index].content` — but `restoreVersion` does not validate: on an
out-of-range index it still appends the current content to `versions` and
then fails, leaving the note mutated. -/
theorem preview_restore_index_amended (note : Note) (index now : Int) :
    (index < 0 ∨ (note.versions.length : Int) ≤ index →
      previewVersion note index = none
      ∧ restoreVersion note index now
          = .thrown { note with versions := note.versions ++ [⟨note.content, now⟩] })
    ∧ (∀ v, jsGetVersion note.versions index = some v →
        previewVersion note index = some v.content) := by
  constructor
  · intro h
    refine ⟨by unfold previewVersion; rw [if_pos h], ?_⟩
    unfold restoreVersion
    simp only [jsGetVersion_eq_none note.versions index h]
  · intro v hv
    have h0 : 0 ≤ index := by
      by_contra h
      unfold jsGetVersion at hv
      rw [if_neg h] at hv
      exact Option.noConfusion hv
    have hlt : index.toNat < note.versions.length := by
      by_contra h
      unfold jsGetVersion at hv
      rw [if_pos h0, List.get?_eq_none.mpr (by omega)] at hv
      exact Option.noConfusion hv
    unfold previewVersion
    rw [if_neg (by omega), hv]
    rfl

/-- Witness for C5 amended, on `exNote1` (one version `a` at index 0):
index 5 is rejected by preview but mutates under restore; index 0 previews
to `a`. -/
theorem preview_restore_index_amended_witness :
    previewVersion exNote1 5 = none
    ∧ restoreVersion exNote1 5 7
        = .thrown { exNote1 with versions := exNote1.versions ++ [⟨exNote1.content, 7⟩] }
    ∧ previewVersion exNote1 0 = some "a" :=
  ⟨((preview_restore_index_amended exNote1 5 7).1 (by decide)).1,
   ((preview_restore_index_amended exNote1 5 7).1 (by decide)).2,
   (preview_restore_index_amended exNote1 0 7).2 ⟨"a", 0⟩ (by decide)⟩

/-- C6: on the success path (every persisted delete succeeds), deleting a
project removes the project record and every note of that project from
memory and store: afterwards no note with that `projectId` remains, notes of
other projects are untouched, and no project record with that id remains.
`hmirror` is the repository invariant that the store mirrors memory,
`hnodup` the uniqueness of note ids. -/
theorem deleteProject_cascade_spec (s : AppState) (pid : Nat)
    (hmirror : s.storeNotes = s.notes)
    (hnodup : (s.notes.map Note.id).Nodup) :
    (deleteProject s pid (fun _ => false)).notes
        = s.notes.filter (fun n => !(n.projectId == some pid))
    ∧ (∀ n ∈ (deleteProject s pid (fun _ => false)).notes, n.projectId ≠ some pid)
    ∧ (∀ n ∈ s.notes, n.projectId ≠ some pid →
        n ∈ (deleteProject s pid (fun _ => false)).notes)
    ∧ (deleteProject s pid (fun _ => false)).storeNotes
        = s.notes.filter (fun n => !(n.projectId == some pid))
    ∧ (∀ p ∈ (deleteProject s pid (fun _ => false)).projects, p.id ≠ pid)
    ∧ (∀ p ∈ (deleteProject s pid (fun _ => false)).storeProjects, p.id ≠ pid) := by
  have hcond : (s.notes.filter (fun n => n.projectId == some pid)).all
      (fun n => !((fun (_ : Nat) => false) n.id)) = true := by
    simp
  have hnotes : (deleteProject s pid (fun _ => false)).notes
      = s.notes.filter (fun n => !(n.projectId == some pid)) := by
    unfold deleteProject
    rw [if_pos hcond]
  have hstore : (deleteProject s pid (fun _ => false)).storeNotes
      = s.notes.filter (fun n => !(n.projectId == some pid)) := by
    unfold deleteProject
    rw [if_pos hcond]
    show List.filter _ s.storeNotes = _
    rw [hmirror]
    apply List.filter_congr
    intro r hr
    congr 1
    rw [Bool.eq_iff_iff]
    simp only [List.any_eq_true, List.mem_filter, Bool.and_eq_true, beq_iff_eq,
      Bool.not_false]
    constructor
    · rintro ⟨n, ⟨hn, hnp⟩, hid, -⟩
      rw [← List.inj_on_of_nodup_map hnodup hn hr hid]
      exact hnp
    · intro hp
      exact ⟨r, ⟨hr, hp⟩, rfl, trivial⟩
  refine ⟨hnotes, ?_, ?_, hstore, ?_, ?_⟩
  · intro n hn
    rw [hnotes] at hn
    simp only [List.mem_filter, Bool.not_eq_true', beq_eq_false_iff_ne, ne_eq] at hn
    exact hn.2
  · intro n hn hne
    rw [hnotes]
    simp only [List.mem_filter, Bool.not_eq_true', beq_eq_false_iff_ne, ne_eq]
    exact ⟨hn, hne⟩
  · intro p hp
    unfold deleteProject at hp
    rw [if_pos hcond] at hp
    simp only [List.mem_filter, bne_iff_ne, ne_eq] at hp
    exact hp.2
  · intro p hp
    unfold deleteProject at hp
    rw [if_pos hcond] at hp
    simp only [List.mem_filter, bne_iff_ne, ne_eq] at hp
    exact hp.2

/-- Witness for C6: deleting project 10 from `exState` (one note in project
10, one in project 20, store mirroring memory) leaves exactly the notes
outside project 10. -/
theorem deleteProject_cascade_spec_witness :
    (deleteProject exState 10 (fun _ => false)).notes
      = exState.notes.filter (fun n => !(n.projectId == some 10)) :=
  (deleteProject_cascade_spec exState 10 rfl (by decide)).1

/-- C7 counterexample: in `exState2` project 10 owns notes 1 and 3 and the
persisted delete of note 1 fails (`exFails`).  The `Promise.all` rejection
skips the in-memory removal (src/app.js:792-796): memory still holds every
note of project 10, refuting the claim that the notes are removed from
memory even when some persisted deletes fail. -/
theorem deleteProject_partial_failure_counterexample :
    exFails 1 = true
    ∧ (deleteProject exState2 10 exFails).notes = exState2.notes
    ∧ ((deleteProject exState2 10 exFails).notes.any
        (fun n => n.projectId == some 10)) = true := by
  decide

/-- C7 amended: all per-note deletes are issued (fan-out), so each one that
succeeds still removes its record from the store; but when any per-note
delete fails, the rejected `Promise.all` skips the in-memory filter: the
notes stay in memory (the failure is only reported), while the project
record itself is still removed.  In-memory removal happens only when every
per-note delete succeeds. -/
theorem deleteProject_partial_failure_amended (s : AppState) (pid : Nat)
    (deleteFails : Nat → Bool)
    (hfail : ∃ n ∈ s.notes, n.projectId = some pid ∧ deleteFails n.id = true) :
    (deleteProject s pid deleteFails).notes = s.notes
    ∧ (∀ p ∈ (deleteProject s pid deleteFails).projects, p.id ≠ pid)
    ∧ (∀ r ∈ s.storeNotes,
        (∃ n ∈ s.notes, n.projectId = some pid ∧ n.id = r.id ∧ deleteFails n.id = false) →
        r ∉ (deleteProject s pid deleteFails).storeNotes) := by
  obtain ⟨n0, hn0, hp0, hf0⟩ := hfail
  have hcond : ¬ ((s.notes.filter (fun n => n.projectId == some pid)).all
      (fun n => !(deleteFails n.id)) = true) := by
    simp only [List.all_eq_true, List.mem_filter, beq_iff_eq, Bool.not_eq_true']
    intro hall
    have h0 := hall n0 ⟨hn0, hp0⟩
    rw [hf0] at h0
    exact Bool.noConfusion h0
  refine ⟨?_, ?_, ?_⟩
  · unfold deleteProject
    rw [if_neg hcond]
  · intro p hp
    unfold deleteProject at hp
    rw [if_neg hcond] at hp
    simp only [List.mem_filter, bne_iff_ne, ne_eq] at hp
    exact hp.2
  · rintro r hr ⟨n, hn, hnp, hid, hsucc⟩ hmem
    unfold deleteProject at hmem
    rw [if_neg hcond] at hmem
    have hpred := (List.mem_filter.mp hmem).2
    simp only [Bool.not_eq_true', List.any_eq_false, List.mem_filter,
      Bool.and_eq_true, beq_iff_eq, Bool.not_eq_true, not_and] at hpred
    exact hpred n ⟨hn, hnp⟩ hid hsucc

/-- Witness for C7 amended: applied to `exState2`, project 10, with the
delete of note 1 failing; note 3's delete succeeds, so its record leaves the
store while memory keeps all notes. -/
theorem deleteProject_partial_failure_amended_witness :
    (deleteProject exState2 10 exFails).notes = exState2.notes
    ∧ exP10b ∉ (deleteProject exState2 10 exFails).storeNotes := by
  have h := deleteProject_partial_failure_amended exState2 10 exFails
    ⟨exP10a, by decide, by decide, by decide⟩
  exact ⟨h.1, h.2.2 exP10b (by decide) ⟨exP10b, by decide, by decide, by decide, by decide⟩⟩

/-- C8: `createNote` seeds `versions` with exactly the single entry
`{content, date := now}` — nonempty for every note ever created — prepends
the note to memory and `put`s it in the store, so `getAll` afterwards
contains a record with the given title, the given content and one version. -/
theorem createNote_seeds_single_version (s : AppState) (id : Nat)
    (title content authorInput : String) (projectId : Option Nat) (now : Int) :
    ∃ n : Note,
      (createNote s id title content authorInput projectId now).notes = n :: s.notes
      ∧ n.versions = [⟨content, now⟩]
      ∧ n.versions.length = 1
      ∧ n.versions ≠ []
      ∧ n.title = title
      ∧ n.content = content
      ∧ n ∈ getAllNotes (createNote s id title content authorInput projectId now) := by
  refine ⟨_, rfl, rfl, rfl, by simp, rfl, rfl, ?_⟩
  unfold getAllNotes createNote putNote
  simp

/-- C9 counterexample: `addProject` of src/unnamed/part_002:529-548 guards
only on JS truthiness, i.e. nonemptiness of the name: the whitespace-only
name consisting of a single space is truthy, so a project is created and
persisted, refuting the claim that whitespace-only names are a no-op. -/
theorem addProject_whitespace_counterexample :
    (" ".toList.all Char.isWhitespace = true)
    ∧ (addProject emptyState 7 " " 0).projects ≠ []
    ∧ (addProject emptyState 7 " " 0).storeProjects ≠ [] := by
  decide

/-- C9 amended: `addProject` is a no-op exactly for the empty name; for any
nonempty name — whitespace-only included — it appends a project with the
given fresh id, the name, and a color drawn from `projectColors`, and
persists it.  (In src/app.js the function has no guard at all; its UI
callers test `name.trim()` before calling.) -/
theorem addProject_empty_guard_amended (s : AppState) (id : Nat)
    (projectName : String) (rand : Nat) :
    (projectName = "" → addProject s id projectName rand = s)
    ∧ (projectName ≠ "" →
        ∃ p : Project,
          (addProject s id projectName rand).projects = s.projects ++ [p]
          ∧ p.name = projectName
          ∧ p.id = id
          ∧ p.color ∈ projectColors
          ∧ p ∈ (addProject s id projectName rand).storeProjects) := by
  constructor
  · intro h
    unfold addProject
    rw [if_neg (by simp [h])]
  · intro h
    have h8 : rand % projectColors.length < projectColors.length :=
      Nat.mod_lt _ (by simp [projectColors])
    refine ⟨{ id := id, name := projectName
              color := projectColors.getD (rand % projectColors.length) "" },
      ?_, rfl, rfl, ?_, ?_⟩
    · unfold addProject
      rw [if_pos h]
    · rw [List.getD_eq_getElem projectColors "" h8]
      exact List.getElem_mem h8
    · unfold addProject putProject
      rw [if_pos h]
      simp

/-- Witness for C9 amended: the empty name leaves the empty state unchanged;
the name `Work` creates exactly one project. -/
theorem addProject_empty_guard_amended_witness :
    addProject emptyState 7 "" 3 = emptyState
    ∧ (addProject emptyState 7 "Work" 3).projects.length = 1 := by
  refine ⟨(addProject_empty_guard_amended emptyState 7 "" 3).1 rfl, ?_⟩
  obtain ⟨p, hp, -⟩ := (addProject_empty_guard_amended emptyState 7 "Work" 3).2 (by decide)
  rw [hp]
  rfl

/-- C10: in the app.js variant every content update ends with
`note.tags = extractTags value` (src/app.js:670-685) — the hashtags of the
new content, lowercased, deduplicated, without the `#` sign — regardless of
the note's previous tags; in particular a tag just added through `addTag`
is gone after the update whenever it is not a hashtag of the new content,
since the resulting tags are exactly `extractTags value`. -/
theorem updateNote_tags_reset_from_content (note : Note) (t value : String)
    (interval now : Int) :
    (updateNoteContent (addTag note t) value interval now).tags = extractTags value
    ∧ (updateNoteContent note value interval now).tags = extractTags value :=
  ⟨updateNoteContent_tags (addTag note t) value interval now,
   updateNoteContent_tags note value interval now⟩

end VaNotes
